import Mathlib

/-!
Verification of the VRC6Ezine content-publishing site's policy core
(access control, content ownership, account lifecycle, credential policy)
against its natural-language specification.

The Python source is shallowly embedded: database tables become lists of
records, handlers become pure functions from (identity context, form
input, state) to (result, state), and the asset store becomes a list of
file names plus an ordered event trace.
-/

namespace VRC6

/-! ## Data model (from database.py `init_db` and the session shape set in app.py `login`) -/

/-- A row of the `users` table (database.py): id, username, email,
password_hash, is_admin, active, last_login. Timestamps are modelled as
natural numbers; `last_login` is nullable. -/
structure User where
  id : Nat
  username : String
  email : String
  password_hash : String
  is_admin : Bool
  active : Bool
  last_login : Option Nat
  deriving Repr, DecidableEq

/-- A row of the `articles` table (database.py). -/
structure Article where
  id : Nat
  title : String
  content : String
  image_path : Option String
  author_id : Nat
  published : Bool
  created_at : Nat
  updated_at : Nat
  deriving Repr, DecidableEq

/-- The identity context stored in the session by app.py `login`:
user_id, username, is_admin. -/
structure Ctx where
  userId : Nat
  username : String
  isAdmin : Bool
  deriving Repr, DecidableEq

/-! ## Credential policy (utils.py) -/

/-- ASCII uppercase test, the `[A-Z]` character class of utils.py
`is_strong_password`. -/
def isUpperAZ (c : Char) : Bool := 'A' ≤ c && c ≤ 'Z'

/-- ASCII lowercase test, the `[a-z]` character class. -/
def isLowerAZ (c : Char) : Bool := 'a' ≤ c && c ≤ 'z'

/-- Decimal digit test, the regex class `\d` (inputs are ASCII here). -/
def isDigit09 (c : Char) : Bool := '0' ≤ c && c ≤ '9'

/-- The special-character set of utils.py `is_strong_password`, the
literal class written there in a regex. -/
def specialChars : List Char :=
  ['!', '@', '#', '$', '%', '^', '&', '*', '(', ')', ',', '.', '?',
   '\"', ':', '\x7b', '\x7d', '|', '<', '>']

/-- utils.py `is_strong_password`: length 8..20 and one character of
each of the four classes, via a chain of early `return False`. -/
def is_strong_password (password : String) : Bool :=
  if password.length < 8 || password.length > 20 then false
  else if !(password.toList.any isUpperAZ) then false
  else if !(password.toList.any isLowerAZ) then false
  else if !(password.toList.any isDigit09) then false
  else if !(password.toList.any (fun c => specialChars.contains c)) then false
  else true

/-! ## Upload extension policy (utils.py `allowed_file`, config.py) -/

/-- config.py `Config.ALLOWED_EXTENSIONS`. -/
def allowedExtensions : List String := ["png", "jpg", "jpeg", "gif", "webp"]

/-- The characters after the last '.' of a name; on a name with no '.'
it returns the whole name (that case is guarded out in `allowed_file`).
This is the second component of Python's `rsplit` on '.' with one split. -/
def afterLastDot (cs : List Char) : List Char :=
  (cs.reverse.takeWhile (fun c => c != '.')).reverse

/-- ASCII lowercasing of a string, the `.lower()` applied to the
extension in utils.py (extensions compared against are ASCII). -/
def lowerStr (s : String) : String := String.mk (s.toList.map Char.toLower)

/-- utils.py `allowed_file`: the name contains a '.' and the lowercased
text after the last '.' is in the configured allowed-extension set. -/
def allowed_file (filename : String) : Bool :=
  filename.toList.contains '.' &&
    allowedExtensions.contains (lowerStr (String.mk (afterLastDot filename.toList)))

/-! ## Helper lemmas -/

theorem takeWhile_append_of_all {p : Char → Bool} :
    ∀ (l r : List Char), (∀ c ∈ l, p c = true) →
      (l ++ r).takeWhile p = l ++ r.takeWhile p := by
  intro l r h
  induction l with
  | nil => simp
  | cons c cs ih =>
    have hc : p c = true := h c (List.mem_cons_self c cs)
    simp [List.takeWhile, hc]
    exact ih (fun d hd => h d (List.mem_cons_of_mem c hd))

theorem afterLastDot_append (pre post : List Char)
    (h : post.contains '.' = false) :
    afterLastDot (pre ++ '.' :: post) = post := by
  unfold afterLastDot
  have hall : ∀ c ∈ post.reverse, (c != '.') = true := by
    intro c hc
    rw [List.mem_reverse] at hc
    have : ¬ (c = '.') := by
      intro hEq
      subst hEq
      simp [List.contains] at h
      exact absurd hc h
    simpa [bne] using this
  rw [List.reverse_append, List.reverse_cons]
  rw [List.append_assoc]
  rw [takeWhile_append_of_all post.reverse ([ '.' ] ++ pre.reverse) hall]
  simp [List.takeWhile]

theorem strong_password_eq (p : String) :
    is_strong_password p =
      ((8 ≤ p.length && p.length ≤ 20) && p.toList.any isUpperAZ &&
        p.toList.any isLowerAZ && p.toList.any isDigit09 &&
        p.toList.any (fun c => specialChars.contains c)) := by
  unfold is_strong_password
  have h : (p.length < 8 || p.length > 20) = !(8 ≤ p.length && p.length ≤ 20) := by
    rw [Bool.eq_iff_iff]
    simp
  rw [h]
  cases hb : (8 ≤ p.length && p.length ≤ 20) <;>
    cases hu : p.toList.any isUpperAZ <;>
      cases hl : p.toList.any isLowerAZ <;>
        cases hd : p.toList.any isDigit09 <;>
          cases hs : p.toList.any (fun c => specialChars.contains c) <;>
            simp [hb, hu, hl, hd, hs]

/-! ## C7 and C9 theorems -/

/-- C7: `is_strong_password` is true exactly when the length is in
[8, 20] and the string has at least one ASCII uppercase letter, one
lowercase letter, one digit, and one symbol of the defined special set;
in particular it is false at lengths 7 and 21 and when any single class
is missing, and true for "Test@1234". The function is total over
strings (never raises). -/
theorem strong_password_spec :
    (∀ p : String,
        is_strong_password p = true ↔
          (8 ≤ p.length ∧ p.length ≤ 20 ∧
            p.toList.any isUpperAZ = true ∧
            p.toList.any isLowerAZ = true ∧
            p.toList.any isDigit09 = true ∧
            p.toList.any (fun c => specialChars.contains c) = true)) ∧
    is_strong_password "Test@1234" = true ∧
    is_strong_password "Short1!" = false ∧
    is_strong_password "Aa1!Aa1!Aa1!Aa1!Aa1!A" = false ∧
    is_strong_password "nouppercase1!" = false ∧
    is_strong_password "NOLOWERCASE1!" = false ∧
    is_strong_password "NoNumberHere!" = false ∧
    is_strong_password "NoSpecialChar1" = false := by
  refine ⟨?_, by decide, by decide, by decide, by decide, by decide, by decide, by decide⟩
  intro p
  rw [strong_password_eq]
  simp [Bool.and_eq_true, and_assoc]

/-- C9: `allowed_file` returns false on a name with no '.', and on a
name of the form pre ++ "." ++ post with no further '.' in post it
returns exactly whether the ASCII-lowercased post is in the configured
allowed-extension set — case-insensitive on the extension, failing
closed on extensionless names. -/
theorem allowed_file_spec :
    (∀ s : String, s.toList.contains '.' = false → allowed_file s = false) ∧
    (∀ pre post : List Char, post.contains '.' = false →
      allowed_file (String.mk (pre ++ '.' :: post)) =
        allowedExtensions.contains (lowerStr (String.mk post))) := by
  constructor
  · intro s h
    unfold allowed_file
    rw [h]
    rfl
  · intro pre post h
    show ((pre ++ '.' :: post).contains '.' &&
        allowedExtensions.contains
          (lowerStr (String.mk (afterLastDot (pre ++ '.' :: post))))) =
      allowedExtensions.contains (lowerStr (String.mk post))
    have hdot : (pre ++ '.' :: post).contains '.' = true := by
      simp
    rw [hdot, afterLastDot_append pre post h, Bool.true_and]

/-- Witness for C9 at concrete inputs: "photo.JPG" is accepted (the
extension check is case-insensitive), "noext" is refused. -/
theorem allowed_file_spec_witness :
    allowed_file (String.mk ("photo".toList ++ '.' :: "JPG".toList)) = true ∧
    allowed_file "noext" = false := by
  constructor
  · have h := allowed_file_spec.2 "photo".toList "JPG".toList (by decide)
    rw [h]
    decide
  · exact allowed_file_spec.1 "noext" (by decide)

/-! ## Article visibility (app.py `view_article`, `dashboard`) -/

/-- app.py `view_article`: the public detail route selects the article
only when `published = TRUE`; the viewer's identity is not consulted. -/
def view_article_visible (a : Article) : Bool := a.published

/-- app.py `dashboard`: an admin's dashboard lists every article; a
non-admin's dashboard lists exactly the articles whose `author_id`
equals the session user id. -/
def dashboard_lists (c : Ctx) (a : Article) : Bool :=
  if c.isAdmin then true else a.author_id == c.userId

/-- Visibility of an article to a viewer across the code's read routes:
the public detail view (open to any viewer) and the dashboard (reached
only with a session, as `dashboard` is wrapped in `login_required`). -/
def canView (viewer : Option Ctx) (a : Article) : Bool :=
  view_article_visible a ||
    (match viewer with
     | some c => dashboard_lists c a
     | none => false)

/-- The spec's formula for `canView`, written from its words for the
refinement comparison: true if `article.published`, OR (`context`
present AND (`context.userId == article.authorId` OR
`context.isAdmin`)). -/
def canView_spec (viewer : Option Ctx) (a : Article) : Bool :=
  a.published ||
    (match viewer with
     | some c => (c.userId == a.author_id) || c.isAdmin
     | none => false)

/-- A concrete unpublished article authored by user 7, for the C2
scenario instances. -/
def unpubArticle : Article :=
  { id := 1, title := "t", content := "c", image_path := none,
    author_id := 7, published := false, created_at := 0, updated_at := 0 }

/-- C2: the source-derived visibility (public detail route joined with
the dashboard listing) coincides with the spec's `canView` formula on
every viewer and article; in particular, on an unpublished article an
anonymous viewer gets false, its author true, a non-owner non-admin
false, and an admin true. -/
theorem canView_matches_spec :
    (∀ viewer a, canView viewer a = canView_spec viewer a) ∧
    canView none unpubArticle = false ∧
    canView (some ⟨7, "a", false⟩) unpubArticle = true ∧
    canView (some ⟨8, "b", false⟩) unpubArticle = false ∧
    canView (some ⟨8, "b", true⟩) unpubArticle = true := by
  refine ⟨?_, by decide, by decide, by decide, by decide⟩
  intro viewer a
  cases viewer with
  | none => rfl
  | some c =>
    have hbe : (c.userId == a.author_id) = (a.author_id == c.userId) := by
      rw [Bool.eq_iff_iff]
      simp only [beq_iff_eq]
      exact eq_comm
    simp only [canView, canView_spec, view_article_visible, dashboard_lists]
    rw [hbe]
    cases hA : c.isAdmin <;> simp [hA]

/-! ## Authentication (app.py `login`) -/

/-- Result of a login attempt: a session context on success, or the one
fixed error outcome (the single flash message covers unknown username,
wrong password, and disabled account alike). -/
inductive LoginResult where
  | success (c : Ctx)
  | invalidCredentials
  deriving Repr, DecidableEq

/-- app.py `login` (POST): select the first user row with the given
username and `active = TRUE`; if one is found and its stored
`password_hash` equals the submitted password, put id, username and
is_admin into the session; otherwise flash the single
invalid-credentials message. The users table is returned unchanged —
the handler performs no write (in particular `auth.update_last_login`
is never invoked anywhere in app.py). -/
def login (st : List User) (username password : String) :
    LoginResult × List User :=
  match st.find? (fun u => u.username == username && u.active) with
  | some u =>
    if u.password_hash == password then
      (.success ⟨u.id, u.username, u.is_admin⟩, st)
    else (.invalidCredentials, st)
  | none => (.invalidCredentials, st)

/-- A concrete user for C3: active, never logged in. -/
def c3User : User :=
  { id := 1, username := "u", email := "u@x.com", password_hash := "p",
    is_admin := false, active := true, last_login := none }

/-- C3 counterexample: a successful login leaves the users table — and
hence every `last_login` field — unchanged (`last_login` is still
`none` after the success), so login does not record `lastLoginAt`,
contrary to the claim. -/
theorem login_last_login_cex :
    (login [c3User] "u" "p").1 = .success ⟨1, "u", false⟩ ∧
    (login [c3User] "u" "p").2 = [c3User] ∧
    c3User.last_login = none := by decide

/-- Any login outcome without a session context is the single
invalid-credentials outcome. -/
theorem login_failure_eq_invalid (st : List User) (username password : String)
    (h : ∀ c, (login st username password).1 ≠ .success c) :
    (login st username password).1 = .invalidCredentials := by
  cases hfind : st.find? (fun u => u.username == username && u.active) with
  | none => simp [login, hfind]
  | some u =>
    by_cases hpw : (u.password_hash == password) = true
    · exact absurd (by simp [login, hfind, hpw])
        (h ⟨u.id, u.username, u.is_admin⟩)
    · simp [login, hfind, hpw]

/-- C3 (amended): with pairwise-distinct usernames, login succeeds
exactly when an active account with that username exists whose stored
credential equals the submitted password (the code compares the two
strings directly); on success the established context carries that
account's id, username and admin flag; the users table is never
modified, so `lastLoginAt` is not recorded; and any two failing
attempts produce the identical invalid-credentials outcome, whether the
username is unknown, the password wrong, or the account inactive. -/
theorem login_spec (st : List User) (username password : String)
    (hnd : (st.map (fun u => u.username)).Nodup) :
    ((∃ c, (login st username password).1 = .success c) ↔
      ∃ u ∈ st, u.username = username ∧ u.active = true ∧
        u.password_hash = password) ∧
    (∀ c, (login st username password).1 = .success c →
      ∃ u ∈ st, u.username = username ∧ u.active = true ∧
        u.password_hash = password ∧ c = ⟨u.id, u.username, u.is_admin⟩) ∧
    (login st username password).2 = st ∧
    (∀ st2 un2 pw2, (∀ c, (login st username password).1 ≠ .success c) →
      (∀ c, (login st2 un2 pw2).1 ≠ .success c) →
      (login st username password).1 = (login st2 un2 pw2).1) := by
  refine ⟨⟨?_, ?_⟩, ?_, ?_, ?_⟩
  · rintro ⟨c, hc⟩
    cases hfind : st.find? (fun u => u.username == username && u.active) with
    | none => simp [login, hfind] at hc
    | some u =>
      simp only [login, hfind] at hc
      have hmem := List.mem_of_find?_eq_some hfind
      have hpred := List.find?_some hfind
      simp only [Bool.and_eq_true, beq_iff_eq] at hpred
      by_cases hpw : u.password_hash = password
      · exact ⟨u, hmem, hpred.1, hpred.2, hpw⟩
      · have hcond : ¬ ((u.password_hash == password) = true) := by simpa using hpw
        rw [if_neg hcond] at hc
        simp at hc
  · rintro ⟨u, hmem, hun, hact, hpw⟩
    cases hfind : st.find? (fun v => v.username == username && v.active) with
    | none =>
      rw [List.find?_eq_none] at hfind
      exact absurd (by simp [hun, hact]) (hfind u hmem)
    | some v =>
      have hvmem := List.mem_of_find?_eq_some hfind
      have hvpred := List.find?_some hfind
      simp only [Bool.and_eq_true, beq_iff_eq] at hvpred
      have hvu : v = u :=
        List.inj_on_of_nodup_map hnd hvmem hmem (hvpred.1.trans hun.symm)
      subst hvu
      refine ⟨⟨v.id, v.username, v.is_admin⟩, ?_⟩
      simp [login, hfind, hpw]
  · intro c hc
    cases hfind : st.find? (fun u => u.username == username && u.active) with
    | none => simp [login, hfind] at hc
    | some u =>
      simp only [login, hfind] at hc
      have hmem := List.mem_of_find?_eq_some hfind
      have hpred := List.find?_some hfind
      simp only [Bool.and_eq_true, beq_iff_eq] at hpred
      by_cases hpw : u.password_hash = password
      · have hcond : (u.password_hash == password) = true := by simpa using hpw
        rw [if_pos hcond] at hc
        have hc' : LoginResult.success ⟨u.id, u.username, u.is_admin⟩ =
            .success c := hc
        injection hc' with hcc
        exact ⟨u, hmem, hpred.1, hpred.2, hpw, hcc.symm⟩
      · have hcond : ¬ ((u.password_hash == password) = true) := by simpa using hpw
        rw [if_neg hcond] at hc
        simp at hc
  · cases hfind : st.find? (fun u => u.username == username && u.active) with
    | none => simp [login, hfind]
    | some u =>
      by_cases hpw : (u.password_hash == password) = true <;>
        simp [login, hfind, hpw]
  · intro st2 un2 pw2 h1 h2
    rw [login_failure_eq_invalid st username password h1,
      login_failure_eq_invalid st2 un2 pw2 h2]

/-- Witness for C3's amended theorem at a concrete input: the one-user
table has distinct usernames, and a failing login attempt there leaves
the users table unchanged. -/
theorem login_spec_witness :
    (([c3User].map (fun u => u.username)).Nodup ∧
     (login [c3User] "u" "wrong").2 = [c3User]) :=
  ⟨by decide, (login_spec [c3User] "u" "wrong" (by decide)).2.2.1⟩

/-! ## Account lifecycle (app.py `admin_add_user`, `admin_edit_user`,
`admin_delete_user`) -/

/-- Outcome of the admin user-management handlers. `validationError` is
the blank-username-or-email flash of `admin_add_user`; `dbError` is the
caught database exception (unique-constraint violation) of either
handler; `notFound` is `admin_edit_user`'s missing-user redirect. -/
inductive UserOpResult where
  | validationError
  | notFound
  | dbError
  | ok
  deriving Repr, DecidableEq

/-- Python's `str.strip()` as used on the posted username and email:
drop whitespace from both ends. -/
def stripStr (s : String) : String :=
  String.mk
    (((s.toList.dropWhile Char.isWhitespace).reverse.dropWhile
        Char.isWhitespace).reverse)

/-- app.py `admin_add_user` (POST): strip username and email; flash a
validation error if either is blank; otherwise insert the new row with
`password_hash` set to the freshly generated password string itself —
the plaintext, not a hash (`utils.hash_password` is never called by
app.py). The users table's unique constraints are the
caught-exception path. The generated password and the new row id are
parameters because the source draws them from a random source and the
database sequence; email delivery only affects the flash message and
is not modelled. -/
def admin_add_user (st : List User) (username email : String)
    (is_admin : Bool) (generated : String) (newId : Nat) :
    UserOpResult × List User :=
  let username := stripStr username
  let email := stripStr email
  if username == "" || email == "" then (.validationError, st)
  else if st.any (fun u => u.username == username || u.email == email) then
    (.dbError, st)
  else
    (.ok, st ++ [{ id := newId, username := username, email := email,
                   password_hash := generated, is_admin := is_admin,
                   active := true, last_login := none }])

/-- C1 is violated by the code: adding user "alice" with generated
password "Test@1234" succeeds and stores exactly that plaintext string
in the credential field — the stored credential equals the plaintext,
and no one-way hash is applied (`utils.hash_password` exists but app.py
never calls it; the login check compares the stored value with the
submitted password by plain string equality, per its own comment
"Simple password check for now"). -/
theorem admin_add_user_stores_plaintext :
    (admin_add_user [] "alice" "alice@x.com" false "Test@1234" 1).1 = .ok ∧
    ((admin_add_user [] "alice" "alice@x.com" false "Test@1234" 1).2.map
        (fun u => u.password_hash)) = ["Test@1234"] := by decide

/-- app.py `admin_edit_user` (POST): redirect with the user-not-found
flash if no row has the id; otherwise strip username and email and
update the row unconditionally — there is no blank-field check here,
unlike `admin_add_user`. With `reset_password` set, a freshly generated
password is also written into `password_hash` (again as plaintext). The
unique constraints are the caught-exception path. -/
def admin_edit_user (st : List User) (user_id : Nat)
    (username email : String) (is_admin active reset_password : Bool)
    (generated : String) : UserOpResult × List User :=
  match st.find? (fun u => u.id == user_id) with
  | none => (.notFound, st)
  | some _ =>
    let username := stripStr username
    let email := stripStr email
    if st.any (fun u => !(u.id == user_id) &&
        (u.username == username || u.email == email)) then
      (.dbError, st)
    else
      (.ok, st.map (fun u =>
        if u.id == user_id then
          if reset_password then
            { u with
              username := username,
              email := email,
              is_admin := is_admin,
              active := active,
              password_hash := generated }
          else
            { u with
              username := username,
              email := email,
              is_admin := is_admin,
              active := active }
        else u))

/-- C10: `admin_edit_user` never returns a validation error for any
input; on an existing user, when the blank values collide with no other
row, the update succeeds and the target row's username and email are
written as the blank string — while `admin_add_user` rejects a blank
username with a validation error for every input. -/
theorem admin_edit_user_accepts_blank :
    (∀ st uid un em ia ac rs g,
      (admin_edit_user st uid un em ia ac rs g).1 ≠ .validationError) ∧
    (∀ st uid ia ac rs g,
      (st.find? (fun u => u.id == uid)).isSome = true →
      st.any (fun u => !(u.id == uid) &&
        (u.username == stripStr "" || u.email == stripStr "")) = false →
      (admin_edit_user st uid "" "" ia ac rs g).1 = .ok ∧
        ∀ u ∈ (admin_edit_user st uid "" "" ia ac rs g).2,
          u.id = uid → u.username = "" ∧ u.email = "") ∧
    (∀ st em ia g n, (admin_add_user st "" em ia g n).1 = .validationError) := by
  have hs : stripStr "" = "" := by decide
  refine ⟨?_, ?_, ?_⟩
  · intro st uid un em ia ac rs g
    cases hfind : st.find? (fun u => u.id == uid) with
    | none => simp [admin_edit_user, hfind]
    | some u =>
      simp only [admin_edit_user, hfind]
      split <;> simp
  · intro st uid ia ac rs g hsome hdup
    cases hfind : st.find? (fun u => u.id == uid) with
    | none => rw [hfind] at hsome; simp at hsome
    | some u =>
      constructor
      · simp [admin_edit_user, hfind, hdup]
      · intro v hv hid
        simp only [admin_edit_user, hfind, hdup, Bool.false_eq_true,
          if_false, List.mem_map] at hv
        rcases hv with ⟨w, hw, hfw⟩
        split at hfw
        · split at hfw <;> (subst hfw; simp [hs])
        · subst hfw
          rename_i hne
          exact absurd (by simpa using hid) (by simpa using hne)
  · intro st em ia g n
    simp [admin_add_user, hs]

/-- A concrete existing user for the C10 witness. -/
def bobUser : User :=
  { id := 1, username := "bob", email := "bob@x.com", password_hash := "h",
    is_admin := false, active := true, last_login := none }

/-- Witness for C10 at a concrete input: editing the one existing user
with blank username and email is accepted. -/
theorem admin_edit_user_accepts_blank_witness :
    (([bobUser].find? (fun u => u.id == 1)).isSome = true) ∧
    ([bobUser].any (fun u => !(u.id == 1) &&
      (u.username == stripStr "" || u.email == stripStr "")) = false) ∧
    (admin_edit_user [bobUser] 1 "" "" false true false "x").1 = .ok := by
  refine ⟨by decide, by decide, ?_⟩
  exact (admin_edit_user_accepts_blank.2.1 [bobUser] 1 false true false "x"
    (by decide) (by decide)).1

/-- The full application state: the two database tables. -/
structure AppState where
  users : List User
  articles : List Article
  deriving Repr, DecidableEq

/-- Outcome of app.py `admin_delete_user`. -/
inductive DeleteUserResult where
  | selfDeleteForbidden
  | hasContentConflict
  | deleted
  deriving Repr, DecidableEq

/-- app.py `admin_delete_user`: redirect with the cannot-delete-own-
account flash when the target id equals the session user's own id
(checked before any database access); otherwise count the target's
articles and refuse with the has-articles flash when the count is
positive; otherwise delete the user row. -/
def admin_delete_user (ctx : Ctx) (user_id : Nat) (st : AppState) :
    DeleteUserResult × AppState :=
  if user_id == ctx.userId then (.selfDeleteForbidden, st)
  else if 0 < (st.articles.filter (fun a => a.author_id == user_id)).length then
    (.hasContentConflict, st)
  else
    (.deleted,
      { st with users := st.users.filter (fun u => !(u.id == user_id)) })

/-- C4: `admin_delete_user` returns `selfDeleteForbidden` exactly when
the target id is the acting admin's own id (this guard runs first, so
it fires even if that account owns articles); it returns
`hasContentConflict` exactly when the target is another user owning at
least one article; in both failure cases the state is unchanged; and
when neither guard fires it deletes exactly the rows with the target id
from the user table, leaving articles untouched. -/
theorem admin_delete_user_spec : ∀ (ctx : Ctx) (uid : Nat) (st : AppState),
    ((admin_delete_user ctx uid st).1 = .selfDeleteForbidden ↔
      uid = ctx.userId) ∧
    ((admin_delete_user ctx uid st).1 = .hasContentConflict ↔
      uid ≠ ctx.userId ∧
        0 < (st.articles.filter (fun a => a.author_id == uid)).length) ∧
    ((admin_delete_user ctx uid st).1 ≠ .deleted →
      (admin_delete_user ctx uid st).2 = st) ∧
    ((admin_delete_user ctx uid st).1 = .deleted →
      (admin_delete_user ctx uid st).2.users =
        st.users.filter (fun u => !(u.id == uid)) ∧
      (admin_delete_user ctx uid st).2.articles = st.articles) := by
  intro ctx uid st
  by_cases h1 : uid = ctx.userId
  · subst h1
    simp [admin_delete_user]
  · by_cases h2 :
      0 < (st.articles.filter (fun a => a.author_id == uid)).length
    · simp [admin_delete_user, h1, h2]
    · simp [admin_delete_user, h1, h2]

/-- Witness for C4 at a concrete input: an admin deleting their own
account is refused with the self-delete error. -/
theorem admin_delete_user_spec_witness :
    (admin_delete_user ⟨1, "chief", true⟩ 1 ⟨[], []⟩).1 =
      .selfDeleteForbidden :=
  (admin_delete_user_spec ⟨1, "chief", true⟩ 1 ⟨[], []⟩).1.mpr rfl

/-! ## Articles (app.py `create_article`, `edit_article`) -/

/-- The POSTed article form: title, content, the published checkbox,
any client-supplied author value (no handler reads such a field — it is
carried here to record that arbitrary extra input is ignored), and the
uploaded file's name when a file field is present. -/
structure ArticleForm where
  title : String
  content : String
  published : Bool
  author : Option Nat
  upload : Option String
  deriving Repr, DecidableEq

/-- The lowercased extension app.py stores for an upload, written there
with `secure_filename` and `rsplit` on '.'. On names accepted by
`allowed_file` the extension is one of the plain alphanumeric allowed
extensions, which `secure_filename` preserves, so it equals the
lowercased text after the last '.' of the raw name. -/
def uploadExt (name : String) : String :=
  lowerStr (String.mk (afterLastDot name.toList))

/-- app.py `create_article` (POST): the stored image path is a fresh
uuid name joined with the upload's lowercased extension when a nonempty
upload passes `allowed_file`, else null; `author_id` is taken from the
session, never from the form. The fresh uuid string, new row id and
current time are parameters drawn externally in the source. -/
def create_article (ctx : Ctx) (form : ArticleForm) (freshName : String)
    (newId now : Nat) : Article :=
  let image_path : Option String :=
    match form.upload with
    | some name =>
      if !(name == "") && allowed_file name then
        some (freshName ++ "." ++ uploadExt name)
      else none
    | none => none
  { id := newId, title := form.title, content := form.content,
    image_path := image_path, author_id := ctx.userId,
    published := form.published, created_at := now, updated_at := now }

/-- C8: for every authenticated context and every client-supplied form
input — including any client-supplied author value carried by the form
— the article produced by `create_article` has `author_id` equal to the
session context's user id. -/
theorem create_article_author_forced :
    ∀ (ctx : Ctx) (form : ArticleForm) (freshName : String) (newId now : Nat),
      (create_article ctx form freshName newId now).author_id = ctx.userId := by
  intro ctx form freshName newId now
  rfl

/-- An operation against the asset store, in chronological order of the
source's file-system calls. -/
inductive FsEvent where
  | removeAsset (path : String)
  | saveAsset (path : String)
  deriving Repr, DecidableEq

/-- Outcome of app.py `edit_article`. -/
inductive EditResult where
  | notFound
  | forbidden
  | updated
  deriving Repr, DecidableEq

/-- Result, article table and ordered asset-store event trace of an
`edit_article` run. -/
structure EditOutcome where
  result : EditResult
  articles : List Article
  events : List FsEvent
  deriving Repr, DecidableEq

/-- app.py `edit_article`: look the article up (redirect with the
not-found flash if missing); refuse with the own-articles flash unless
the session user is admin or the author — both checks run before the
POST body, so in these cases nothing is written and no asset is
touched; otherwise, when a nonempty upload passes `allowed_file`, the
handler first deletes the old stored asset (if the article has one and
it exists on disk) and only then saves the upload under a fresh uuid
name — the event trace records that order — and finally updates the row
with the form fields, the resulting image path and a fresh
`updated_at`. -/
def edit_article (ctx : Ctx) (article_id : Nat) (form : ArticleForm)
    (freshName : String) (now : Nat) (fs : List String)
    (st : List Article) : EditOutcome :=
  match st.find? (fun a => a.id == article_id) with
  | none => ⟨.notFound, st, []⟩
  | some article =>
    if !ctx.isAdmin && !(article.author_id == ctx.userId) then
      ⟨.forbidden, st, []⟩
    else
      let step : Option String × List FsEvent :=
        match form.upload with
        | some name =>
          if !(name == "") && allowed_file name then
            let newName := freshName ++ "." ++ uploadExt name
            match article.image_path with
            | some old =>
              if fs.contains old then
                (some newName, [.removeAsset old, .saveAsset newName])
              else (some newName, [.saveAsset newName])
            | none => (some newName, [.saveAsset newName])
          else (article.image_path, [])
        | none => (article.image_path, [])
      ⟨.updated,
        st.map (fun a =>
          if a.id == article_id then
            { a with
              title := form.title,
              content := form.content,
              image_path := step.1,
              published := form.published,
              updated_at := now }
          else a),
        step.2⟩

/-- C5: `edit_article` returns `notFound` exactly when no article has
the id; for an existing article it returns `forbidden` exactly when the
session user is neither an admin nor the author; in the forbidden case
the article table is completely unchanged and no asset is touched; and
on success every row with the target id carries the form's title,
content and published flag and has `updated_at` refreshed to the
current time. -/
theorem edit_article_spec :
    ∀ (ctx : Ctx) (article_id : Nat) (form : ArticleForm)
      (freshName : String) (now : Nat) (fs : List String)
      (st : List Article),
    ((edit_article ctx article_id form freshName now fs st).result =
        .notFound ↔ st.find? (fun a => a.id == article_id) = none) ∧
    (∀ a, st.find? (fun a => a.id == article_id) = some a →
      ((edit_article ctx article_id form freshName now fs st).result =
          .forbidden ↔
        (!ctx.isAdmin && !(a.author_id == ctx.userId)) = true)) ∧
    ((edit_article ctx article_id form freshName now fs st).result =
        .forbidden →
      (edit_article ctx article_id form freshName now fs st).articles = st ∧
      (edit_article ctx article_id form freshName now fs st).events = []) ∧
    ((edit_article ctx article_id form freshName now fs st).result =
        .updated →
      ∀ a ∈ (edit_article ctx article_id form freshName now fs st).articles,
        a.id = article_id →
          a.title = form.title ∧ a.content = form.content ∧
          a.published = form.published ∧ a.updated_at = now) := by
  intro ctx article_id form freshName now fs st
  cases hfind : st.find? (fun a => a.id == article_id) with
  | none =>
    refine ⟨by simp [edit_article, hfind], ?_, ?_, ?_⟩
    · intro a ha
      exact absurd ha (by simp)
    · intro h
      simp [edit_article, hfind] at h
    · intro h
      simp [edit_article, hfind] at h
  | some article =>
    by_cases hauth : (!ctx.isAdmin && !(article.author_id == ctx.userId)) = true
    · refine ⟨by simp [edit_article, hfind, hauth], ?_, ?_, ?_⟩
      · intro a ha
        injection ha with ha
        subst ha
        simp [edit_article, hfind, hauth]
      · intro _
        simp [edit_article, hfind, hauth]
      · intro h
        simp [edit_article, hfind, hauth] at h
    · refine ⟨by simp [edit_article, hfind, hauth], ?_, ?_, ?_⟩
      · intro a ha
        injection ha with ha
        subst ha
        simp [edit_article, hfind, hauth]
      · intro h
        simp [edit_article, hfind, hauth] at h
      · intro _ a ha hid
        simp only [edit_article, hfind, hauth, Bool.false_eq_true, if_false,
          List.mem_map] at ha
        rcases ha with ⟨w, hw, hfw⟩
        split at hfw
        · subst hfw
          simp
        · subst hfw
          rename_i hne
          exact absurd (by simpa using hid) (by simpa using hne)

/-- Witness for C5 at a concrete input: a non-owner non-admin editing
someone else's article is refused and the article table is unchanged. -/
theorem edit_article_spec_witness :
    (edit_article ⟨2, "eve", false⟩ 1 ⟨"t2", "c2", true, none, none⟩
        "f" 9 [] [unpubArticle]).result = .forbidden ∧
    (edit_article ⟨2, "eve", false⟩ 1 ⟨"t2", "c2", true, none, none⟩
        "f" 9 [] [unpubArticle]).articles = [unpubArticle] := by
  refine ⟨by decide, ?_⟩
  exact ((edit_article_spec ⟨2, "eve", false⟩ 1 ⟨"t2", "c2", true, none, none⟩
    "f" 9 [] [unpubArticle]).2.2.1 (by decide)).1

/-- The asset store after applying one asset event: removal filters the
name out, save appends it. -/
def applyEvent (fs : List String) : FsEvent → List String
  | .removeAsset p => fs.filter (fun q => !(q == p))
  | .saveAsset p => fs ++ [p]

/-- The asset store after an ordered event trace, step by step. -/
def applyEvents (fs : List String) : List FsEvent → List String
  | [] => fs
  | e :: es => applyEvents (applyEvent fs e) es

/-- A concrete article with a stored image asset, for C6. -/
def c6Article : Article :=
  { id := 1, title := "t", content := "c", image_path := some "old.png",
    author_id := 7, published := true, created_at := 0, updated_at := 0 }

/-- C6 is violated by the code: replacing the image of an article whose
old asset exists on disk emits remove-old THEN save-new, in that order;
after the first event the old asset is already gone while the new one
is not yet saved — exactly the intermediate window the claim rules out.
The spec's design notes themselves flag this ordering as the source's
replace-then-delete bug. -/
theorem edit_article_delete_before_save :
    (edit_article ⟨7, "u", false⟩ 1 ⟨"t", "c", true, none, some "new.JPG"⟩
        "f" 5 ["old.png"] [c6Article]).events =
      [.removeAsset "old.png", .saveAsset "f.jpg"] ∧
    (applyEvents ["old.png"]
        ((edit_article ⟨7, "u", false⟩ 1 ⟨"t", "c", true, none, some "new.JPG"⟩
            "f" 5 ["old.png"] [c6Article]).events.take 1)).contains
      "old.png" = false ∧
    (applyEvents ["old.png"]
        ((edit_article ⟨7, "u", false⟩ 1 ⟨"t", "c", true, none, some "new.JPG"⟩
            "f" 5 ["old.png"] [c6Article]).events.take 1)).contains
      "f.jpg" = false := by
  decide

end VRC6
